import Mathlib

/-!
Verification of the native shell in `src/src-tauri/src/lib.rs`.

Rust strings (`String` / `&str`) are modelled as lists of characters.
Fallible operations return `Except`.  The host window manager and the
event channel are modelled by explicit state passing: each command takes
the host state and returns its result, the new state and the trace of
host calls it performed; each lifecycle callback returns the list of
events it emits to the UI.
-/

/-- A Rust string, modelled as its sequence of characters. -/
abbrev Str := List Char

/-- Rust `str::trim`: removes leading and trailing whitespace characters
(drop whitespace from the front, then from the back).  `Char.isWhitespace`
models Rust `char::is_whitespace` on the characters that occur here. -/
def trim (s : Str) : Str :=
  ((s.dropWhile Char.isWhitespace).reverse.dropWhile Char.isWhitespace).reverse

/-- Rust `str::contains` with a string pattern: substring search, true iff
`needle` occurs contiguously inside the haystack. -/
def containsSubstr (needle : Str) : Str → Bool
  | [] => needle.isPrefixOf []
  | c :: rest => needle.isPrefixOf (c :: rest) || containsSubstr needle rest

/-- Function `is_valid_deep_link` from `lib.rs` (lines 118-122): trims the URL and
accepts exactly the strings whose trimmed form starts with `mailto:` or
`forwardemail:`. -/
def is_valid_deep_link (url : Str) : Bool :=
  let trimmed := trim url
  "mailto:".toList.isPrefixOf trimmed || "forwardemail:".toList.isPrefixOf trimmed

/-- Function `set_badge_count` from `lib.rs` (lines 43-59): rejects counts above
99999 with an exact error message, otherwise succeeds (the platform badge
call is a no-op placeholder in the source). -/
def set_badge_count (count : Nat) : Except Str Unit :=
  if count > 99999 then
    Except.error "Badge count must be between 0 and 99999".toList
  else
    Except.ok ()

/-- Payload of the `deep-link-received` event (`DeepLinkPayload` in
`lib.rs`). -/
structure DeepLinkPayload where
  urls : List Str
deriving DecidableEq

/-- Payload of the `single-instance` event (`SingleInstancePayload` in
`lib.rs`). -/
structure SingleInstancePayload where
  args : List Str
  cwd : Str
deriving DecidableEq

/-- The events the shell emits to the UI. -/
inductive Event where
  | tauriReady
  | deepLinkReceived (p : DeepLinkPayload)
  | singleInstance (p : SingleInstancePayload)
deriving DecidableEq

/-- The listener installed on `deep-link://new-url` in the setup
closure of `run` (`lib.rs` lines 177-191).  The JSON parse of the raw payload is
external (serde); its result is modelled as `Option (List Str)` — `none`
for an un-parseable payload, which the listener drops silently.  On a
parsed list of URLs it keeps those passing `is_valid_deep_link` and emits
a `deep-link-received` event only when the filtered list is non-empty. -/
def deep_link_on_new_url (parsed : Option (List Str)) : Option DeepLinkPayload :=
  match parsed with
  | none => none
  | some urls =>
      let safe_urls := urls.filter (fun u => is_valid_deep_link u)
      if safe_urls.isEmpty then none else some ⟨safe_urls⟩

/-- The argument filter of the single-instance callback (`lib.rs` lines
140-145): keep an argument iff it passes `is_valid_deep_link` or does not
contain `://`. -/
def safe_args (args : List Str) : List Str :=
  args.filter (fun a => is_valid_deep_link a || !(containsSubstr "://".toList a))

/-- The single-instance callback (`lib.rs` lines 134-153), restricted to
its event output: on every duplicate-launch signal it emits exactly one
`single-instance` event carrying the filtered arguments and the unchanged
working directory.  (It also re-shows the main window; that effect is
modelled with the window commands below.) -/
def single_instance_callback (args : List Str) (cwd : Str) : List Event :=
  [Event.singleInstance ⟨safe_args args, cwd⟩]

/-- The main webview window as the host window manager owns it. -/
structure MainWindow where
  visible : Bool
  focused : Bool
deriving DecidableEq

/-- The host calls `toggle_window_visibility` can perform, recorded as a
trace. -/
inductive HostCall where
  | queryVisible
  | showWindow
  | hideWindow
  | focusWindow
deriving DecidableEq

/-- The host runtime as `toggle_window_visibility` sees it: the `main`
window (or none), and the outcome the host has in store for each fallible
call — `none` means the call succeeds, `some e` means it fails with error
text `e` (Rust `e.to_string()`). -/
structure Host where
  main : Option MainWindow
  queryErr : Option Str
  hideErr : Option Str
  showErr : Option Str
  focusErr : Option Str
deriving DecidableEq

/-- Command `toggle_window_visibility` from `lib.rs` (lines 64-76).  Looks up the
`main` window (error `Main window not found` if absent, nothing else
happens); queries visibility with `is_visible().unwrap_or(false)`, so a
failed query counts as hidden; then hides a visible window, or shows and
focuses a hidden one, propagating the first host failure.  Returns the
command result, the updated host state, and the trace of host calls. -/
def toggle_window_visibility (h : Host) : Except Str Unit × Host × List HostCall :=
  match h.main with
  | none => (Except.error "Main window not found".toList, h, [])
  | some w =>
      let vis : Bool :=
        match h.queryErr with
        | none => w.visible
        | some _ => false
      if vis then
        match h.hideErr with
        | some e => (Except.error e, h, [HostCall.queryVisible, HostCall.hideWindow])
        | none =>
            (Except.ok (),
             { h with main := some { w with visible := false } },
             [HostCall.queryVisible, HostCall.hideWindow])
      else
        match h.showErr with
        | some e => (Except.error e, h, [HostCall.queryVisible, HostCall.showWindow])
        | none =>
            match h.focusErr with
            | some e =>
                (Except.error e,
                 { h with main := some { w with visible := true } },
                 [HostCall.queryVisible, HostCall.showWindow, HostCall.focusWindow])
            | none =>
                (Except.ok (),
                 { h with main := some { w with visible := true, focused := true } },
                 [HostCall.queryVisible, HostCall.showWindow, HostCall.focusWindow])

/-- The initialization-time host callbacks that can reach the listeners
registered in `run`: delivery on the `deep-link://new-url` channel (with
the payload already put through the external JSON parse), and a
duplicate-launch signal from the single-instance plugin. -/
inductive HostCallback where
  | deepLinkNewUrl (parsed : Option (List Str))
  | duplicateLaunch (args : List Str) (cwd : Str)

/-- Events a single host callback makes the shell emit (the two
callback closures in `run`). -/
def handle_callback : HostCallback → List Event
  | HostCallback.deepLinkNewUrl parsed =>
      match deep_link_on_new_url parsed with
      | none => []
      | some p => [Event.deepLinkReceived p]
  | HostCallback.duplicateLaunch args cwd => single_instance_callback args cwd

/-- Events emitted by a sequence of host callbacks, in delivery order. -/
def callback_events : List HostCallback → List Event
  | [] => []
  | cb :: rest => handle_callback cb ++ callback_events rest

/-- The event trace of `run` (`lib.rs` lines 126-199): the setup closure
registers the tray and the `deep-link://new-url` listener and then emits
`tauri-ready` once; the host event loop only starts delivering callbacks
after setup returns, so every callback-driven event follows it. -/
def run_events (cbs : List HostCallback) : List Event :=
  Event.tauriReady :: callback_events cbs

/-- Prefix decomposition: being a list prefix is exactly having an
appended completion. -/
theorem prefix_iff_append (p l : Str) : p <+: l ↔ ∃ t, l = p ++ t := by
  constructor
  · rintro ⟨t, ht⟩
    exact ⟨t, ht.symm⟩
  · rintro ⟨t, ht⟩
    exact ⟨t, ht.symm⟩

/-- Claim C1: for every string `s`, `is_valid_deep_link s` is true iff `s`,
after trimming leading and trailing whitespace, starts with the prefix
`mailto:` or the prefix `forwardemail:`; the function is a total Lean
function (pure, never fails), and in particular rejects the empty string. -/
theorem is_valid_deep_link_spec (s : Str) :
    (is_valid_deep_link s = true ↔
      ((∃ t, trim s = "mailto:".toList ++ t) ∨
       (∃ t, trim s = "forwardemail:".toList ++ t)))
    ∧ is_valid_deep_link [] = false := by
  refine ⟨?_, by decide⟩
  unfold is_valid_deep_link
  simp only [Bool.or_eq_true, List.isPrefixOf_iff_prefix]
  exact or_congr (prefix_iff_append _ _) (prefix_iff_append _ _)

/-- Correctness of `containsSubstr`: it decides substring occurrence,
the infix relation. -/
theorem containsSubstr_iff (needle hay : Str) :
    containsSubstr needle hay = true ↔ needle <:+: hay := by
  induction hay with
  | nil =>
      simp [containsSubstr, List.isPrefixOf_iff_prefix, List.prefix_nil,
        List.infix_nil]
  | cons c rest ih =>
      simp [containsSubstr, Bool.or_eq_true, List.isPrefixOf_iff_prefix, ih,
        List.infix_cons_iff]

/-- Agreement of `containsSubstr` with the decidable infix test. -/
theorem containsSubstr_eq_decide (needle a : Str) :
    containsSubstr needle a = decide (needle <:+: a) := by
  by_cases hI : needle <:+: a
  · simp [hI, (containsSubstr_iff needle a).mpr hI]
  · simp only [hI, decide_eq_false_iff_not]
    exact Bool.eq_false_iff.mpr fun hC => hI ((containsSubstr_iff needle a).mp hC)

/-- Claim C3: on a payload that parses as a list of strings, the
`deep-link-received` event is emitted iff at least one string passes
`is_valid_deep_link`; its `urls` payload is the order-preserving filter of
the input by `is_valid_deep_link`; and it never carries an empty list. -/
theorem deep_link_received_spec (urls : List Str) :
    (deep_link_on_new_url (some urls) =
      if urls.any is_valid_deep_link
      then some ⟨urls.filter (fun u => is_valid_deep_link u)⟩
      else none)
    ∧ (deep_link_on_new_url (some urls)).all (fun p => !p.urls.isEmpty) = true := by
  have hfun : deep_link_on_new_url (some urls) =
      if (urls.filter (fun u => is_valid_deep_link u)).isEmpty then none
      else some ⟨urls.filter (fun u => is_valid_deep_link u)⟩ := rfl
  have key : ((urls.filter (fun u => is_valid_deep_link u)).isEmpty = true) ↔
      ¬ (urls.any is_valid_deep_link = true) := by
    simp [List.isEmpty_iff, List.filter_eq_nil_iff, List.any_eq_true]
  by_cases hE : (urls.filter (fun u => is_valid_deep_link u)).isEmpty = true
  · rw [hfun, if_pos hE, if_neg (key.mp hE)]
    exact ⟨rfl, rfl⟩
  · have hA : urls.any is_valid_deep_link = true := by
      by_contra hA
      exact hE (key.mpr hA)
    rw [hfun, if_neg hE, if_pos hA]
    refine ⟨rfl, ?_⟩
    simp only [Option.all, Bool.not_eq_true']
    exact Bool.eq_false_iff.mpr hE

/-- Claim C4: on a duplicate-launch signal, an argument is forwarded in
the `single-instance` payload iff it passes `is_valid_deep_link` or does
not contain the substring `://`; the forwarded list is the
order-preserving filter of the input by that predicate. -/
theorem single_instance_filter_spec (args : List Str) (cwd : Str) :
    single_instance_callback args cwd =
      [Event.singleInstance
        ⟨args.filter (fun a =>
           is_valid_deep_link a || decide (¬ ("://".toList <:+: a))), cwd⟩] := by
  unfold single_instance_callback safe_args
  have hfil : args.filter
        (fun a => is_valid_deep_link a || !(containsSubstr "://".toList a)) =
      args.filter
        (fun a => is_valid_deep_link a || decide (¬ ("://".toList <:+: a))) := by
    apply List.filter_congr
    intro a _
    rw [containsSubstr_eq_decide, ← decide_not]
  rw [hfil]

/-- Claim C5: the `single-instance` event fires on every duplicate-launch
signal — exactly one event, even when the filtered argument list is empty
— with payload carrying the filtered arguments and the unchanged working
directory; in particular input `args = []`, `cwd = "/tmp"` produces
payload `args = []`, `cwd = "/tmp"`. -/
theorem single_instance_always_emits (args : List Str) (cwd : Str) :
    (single_instance_callback args cwd).length = 1
    ∧ single_instance_callback args cwd =
        [Event.singleInstance ⟨safe_args args, cwd⟩]
    ∧ single_instance_callback [] "/tmp".toList =
        [Event.singleInstance ⟨[], "/tmp".toList⟩] :=
  ⟨rfl, rfl, rfl⟩

/-- Claim C2: `set_badge_count n` succeeds iff `n ≤ 99999` and otherwise
returns (as a value, not an exception) the exact error message
`Badge count must be between 0 and 99999`. -/
theorem set_badge_count_spec (n : Nat) :
    (set_badge_count n = Except.ok () ↔ n ≤ 99999)
    ∧ (set_badge_count n =
        Except.error "Badge count must be between 0 and 99999".toList ↔
        99999 < n) := by
  unfold set_badge_count
  by_cases h : n > 99999
  · rw [if_pos h]
    exact ⟨⟨fun hc => Except.noConfusion hc, fun hle => absurd h (by omega)⟩,
           ⟨fun _ => h, fun _ => rfl⟩⟩
  · rw [if_neg h]
    exact ⟨⟨fun _ => by omega, fun _ => rfl⟩,
           ⟨fun hc => Except.noConfusion hc, fun hlt => absurd hlt h⟩⟩

/-- Claim C6: with no `main` window, `toggle_window_visibility` fails with
exactly `Main window not found`, performs no host call (in particular no
show, hide or focus), and leaves the host state unchanged. -/
theorem toggle_missing_window (q hd sh fo : Option Str) :
    toggle_window_visibility ⟨none, q, hd, sh, fo⟩ =
      (Except.error "Main window not found".toList, ⟨none, q, hd, sh, fo⟩, []) := rfl

/-- Claim C7: with an existing main window and no host-call failures, each
call queries visibility and then either hides a visible window or shows
and focuses a hidden one, and two successive calls restore the original
visibility. -/
theorem toggle_twice_restores (v fo : Bool) :
    ((((toggle_window_visibility
        ((toggle_window_visibility
          ⟨some ⟨v, fo⟩, none, none, none, none⟩).2.1)).2.1).main).map
      MainWindow.visible = some v)
    ∧ (toggle_window_visibility ⟨some ⟨v, fo⟩, none, none, none, none⟩).2.2 =
        (if v then [HostCall.queryVisible, HostCall.hideWindow]
         else [HostCall.queryVisible, HostCall.showWindow, HostCall.focusWindow]) := by
  cases v <;> cases fo <;> exact ⟨rfl, rfl⟩

/-- Claim C9: when the visibility query fails, the window is treated as
hidden — the command shows and focuses the window and returns success,
never surfacing the query failure, whatever the actual visibility was. -/
theorem toggle_query_failure_shows (v fo : Bool) (e : Str) :
    toggle_window_visibility ⟨some ⟨v, fo⟩, some e, none, none, none⟩ =
      (Except.ok (), ⟨some ⟨true, true⟩, some e, none, none, none⟩,
       [HostCall.queryVisible, HostCall.showWindow, HostCall.focusWindow]) := rfl

/-- Claim C8: in every run, `tauri-ready` is emitted exactly once, as the
head of the trace, before every callback-driven `deep-link-received` or
`single-instance` event — no callback ever emits `tauri-ready` again. -/
theorem tauri_ready_first (cbs : List HostCallback) :
    (run_events cbs).count Event.tauriReady = 1
    ∧ run_events cbs = Event.tauriReady :: callback_events cbs
    ∧ (callback_events cbs).count Event.tauriReady = 0 := by
  have hnone : ∀ cb, Event.tauriReady ∉ handle_callback cb := by
    intro cb
    cases cb with
    | deepLinkNewUrl parsed =>
        cases hd : deep_link_on_new_url parsed with
        | none => simp [handle_callback, hd]
        | some p => simp [handle_callback, hd]
    | duplicateLaunch args cwd =>
        simp [handle_callback, single_instance_callback]
  have hzero : ∀ l : List HostCallback,
      (callback_events l).count Event.tauriReady = 0 := by
    intro l
    induction l with
    | nil => rfl
    | cons cb rest ih =>
        rw [callback_events, List.count_append, ih, Nat.add_zero]
        exact List.count_eq_zero_of_not_mem (hnone cb)
  refine ⟨?_, rfl, hzero cbs⟩
  rw [run_events, List.count_cons, hzero cbs]
  simp

/-- Claim C10: validation never rewrites inputs — the `urls` of every
emitted `deep-link-received` payload and the `args` of every
`single-instance` payload form a sublist of the original strings,
character for character; a URL with leading whitespace is forwarded
untrimmed even though acceptance is decided on the trimmed value. -/
theorem payloads_preserve_strings (urls args : List Str) (cwd : Str) :
    (match deep_link_on_new_url (some urls) with
     | none => True
     | some p => p.urls.Sublist urls)
    ∧ (safe_args args).Sublist args
    ∧ single_instance_callback args cwd =
        [Event.singleInstance ⟨safe_args args, cwd⟩]
    ∧ deep_link_on_new_url (some ["  mailto:a".toList]) =
        some ⟨["  mailto:a".toList]⟩ := by
  refine ⟨?_, List.filter_sublist args, rfl, by decide⟩
  have hfun : deep_link_on_new_url (some urls) =
      if (urls.filter (fun u => is_valid_deep_link u)).isEmpty then none
      else some ⟨urls.filter (fun u => is_valid_deep_link u)⟩ := rfl
  cases hd : deep_link_on_new_url (some urls) with
  | none => trivial
  | some p =>
      rw [hfun] at hd
      by_cases hE : (urls.filter (fun u => is_valid_deep_link u)).isEmpty = true
      · rw [if_pos hE] at hd
        exact Option.noConfusion hd
      · rw [if_neg hE] at hd
        have hp : p = ⟨urls.filter (fun u => is_valid_deep_link u)⟩ :=
          (Option.some.inj hd).symm
        rw [hp]
        exact List.filter_sublist urls
